import Mathlib

/-!
Verification of the FastCopy wire protocol and connection pool
(src/network.py), as a shallow embedding in Lean 4.

Bytes are modelled as natural numbers below 256, byte strings as
List Nat.  Fallible Python operations (struct.pack, struct.unpack,
the Flag IntEnum coercion, UTF-8 decoding) are modelled as
Option-valued functions, where none means the Python call raises.
-/

namespace FastCopy

/-- Modelled from the spec: LEN_HEAD is the 7-byte frame head length
(const.py is not part of the sources provided; section 6 of the spec
fixes LEN_HEAD = 7). -/
def LEN_HEAD : Nat := 7

/-- Modelled from the spec: EOF is a fixed 32-bit sentinel carried in
the DONE body (const.py is not part of the sources provided; the exact
value is implementation defined and immaterial to the claims, any
value below 2 to the 32 works). -/
def EOF : Nat := 4294967295

/-- Modelled from the spec: the closed set of single-byte packet tags
(const.py is not part of the sources provided; section 3 of the spec
lists the closed set, unknown byte values are a protocol error). -/
inductive Flag where
  | PULL
  | PUSH
  | SID
  | ATTACH
  | FILE_COUNT
  | DIR_INFO
  | FILE_INFO
  | FILE_READY
  | FILE_CHUNK
  | DONE
  | RESEND
deriving DecidableEq

/-- Modelled from the spec: the byte value of each tag.  The spec does
not pin the numeric values; we use 1..11 in declaration order.  No
claim depends on the particular injective assignment. -/
def Flag.val : Flag → Nat
  | .PULL => 1
  | .PUSH => 2
  | .SID => 3
  | .ATTACH => 4
  | .FILE_COUNT => 5
  | .DIR_INFO => 6
  | .FILE_INFO => 7
  | .FILE_READY => 8
  | .FILE_CHUNK => 9
  | .DONE => 10
  | .RESEND => 11

/-- The IntEnum coercion Flag(n): some tag when n names a member,
none when Python would raise ValueError. -/
def Flag.ofNat? : Nat → Option Flag
  | 1 => some .PULL
  | 2 => some .PUSH
  | 3 => some .SID
  | 4 => some .ATTACH
  | 5 => some .FILE_COUNT
  | 6 => some .DIR_INFO
  | 7 => some .FILE_INFO
  | 8 => some .FILE_READY
  | 9 => some .FILE_CHUNK
  | 10 => some .DONE
  | 11 => some .RESEND
  | _ => none

/-- Modelled from the spec: the two phases of a per-socket Buffer
(const.py is not part of the sources provided; section 3 of the spec
gives waiting as a member of the set HEAD, BODY). -/
inductive PacketSnippet where
  | HEAD
  | BODY
deriving DecidableEq

/-! ## CRC32 (binascii.crc32)

The standard reflected CRC-32 with polynomial 0xEDB88320, bit by bit.
The low byte mask on the input keeps the model total; on genuine bytes
(below 256) the mask is the identity. -/

def crc32Round (c : Nat) : Nat :=
  if c % 2 = 1 then (c / 2) ^^^ 3988292384 else c / 2

def crc32Byte (crc b : Nat) : Nat :=
  crc32Round (crc32Round (crc32Round (crc32Round
    (crc32Round (crc32Round (crc32Round (crc32Round (crc ^^^ b % 256))))))))

def crc32 (data : List Nat) : Nat :=
  (data.foldl crc32Byte 4294967295) ^^^ 4294967295

/-! ## Big-endian integer fields (struct pack and unpack)

u16be, u32be, u64be produce the big-endian byte lists of the formats
H, I, Q; the primed variants model the range check struct.pack makes
(none when the Python call raises struct.error).  beVal is the
big-endian value of a byte list, as struct.unpack reads it. -/

def u16be (n : Nat) : List Nat := [n / 256 % 256, n % 256]

def u32be (n : Nat) : List Nat :=
  [n / 16777216 % 256, n / 65536 % 256, n / 256 % 256, n % 256]

def u64be (n : Nat) : List Nat :=
  [n / 72057594037927936 % 256, n / 281474976710656 % 256,
   n / 1099511627776 % 256, n / 4294967296 % 256,
   n / 16777216 % 256, n / 65536 % 256, n / 256 % 256, n % 256]

def u16be? (n : Nat) : Option (List Nat) :=
  if n < 65536 then some (u16be n) else none

def u32be? (n : Nat) : Option (List Nat) :=
  if n < 4294967296 then some (u32be n) else none

def u64be? (n : Nat) : Option (List Nat) :=
  if n < 18446744073709551616 then some (u64be n) else none

def beVal (l : List Nat) : Nat := l.foldl (fun a b => a * 256 + b) 0

/-- The struct field 16s: pad with zero bytes up to 16, truncate past
16, exactly as struct.pack does for the fixed-size s format. -/
def fix16 (l : List Nat) : List Nat :=
  l.take 16 ++ List.replicate (16 - l.length) 0

/-! ## UTF-8 validity (str.decode)

Python decodes PULL and PUSH bodies with bytes.decode, a strict UTF-8
decoder: no continuation-only lead bytes, no overlong forms, no
surrogates, nothing above U+10FFFF.  We represent a Python str by its
UTF-8 encoding, so a successful decode is the identity on the byte
list and utf8Valid captures exactly when the decode succeeds. -/

def utf8Cont (b : Nat) : Bool := 128 ≤ b && b < 192

def utf8Valid : List Nat → Bool
  | [] => true
  | b :: rest =>
    if b < 128 then utf8Valid rest
    else if b < 194 then false
    else if b < 224 then
      match rest with
      | c1 :: r => utf8Cont c1 && utf8Valid r
      | [] => false
    else if b < 240 then
      match rest with
      | c1 :: c2 :: r =>
        (if b = 224 then (160 ≤ c1 && c1 < 192 : Bool)
         else if b = 237 then (128 ≤ c1 && c1 < 160 : Bool)
         else utf8Cont c1) && utf8Cont c2 && utf8Valid r
      | _ => false
    else if b < 245 then
      match rest with
      | c1 :: c2 :: c3 :: r =>
        (if b = 240 then (144 ≤ c1 && c1 < 192 : Bool)
         else if b = 244 then (128 ≤ c1 && c1 < 144 : Bool)
         else utf8Cont c1) && utf8Cont c2 && utf8Cont c3 && utf8Valid r
      | _ => false
    else false

/-! ## Packet (network.py lines 13-113) -/

/-- network.py line 13: Packet is a NamedTuple of a flag and a body. -/
structure Packet where
  flag : Flag
  body : List Nat
deriving DecidableEq

/-- network.py line 21: length is the body length. -/
def Packet.length (p : Packet) : Nat := p.body.length

/-- network.py line 25: chksum is the CRC32 of the body. -/
def Packet.chksum (p : Packet) : Nat := crc32 p.body

/-- The argument tuple passed to Packet.load, one shape per body
layout.  A Python str path argument is represented by its UTF-8
encoding, which load would produce by str.encode, and the eight f64
mtime bytes stand for the IEEE-754 big-endian encoding the d format
writes (pack and unpack preserve the bit pattern exactly). -/
inductive Args where
  | path (b : List Nat)
  | num (n : Nat)
  | dirInfo (fid perm : Nat) (pa : List Nat)
  | fileInfo (fid perm size : Nat) (mtime md5 pa : List Nat)
  | fileChunk (fid seq : Nat) (chunk : List Nat)
  | done (n : Nat)
  | resend (f c l : Nat)
deriving DecidableEq

/-- network.py lines 28-57, Packet.load: build the body from the
arguments.  none models a struct.error or TypeError raised by pack:
an out-of-range integer field, an mtime argument that is not a float,
or an argument tuple whose shape does not fit the format string.
(The str(args) fallback of the PULL and PUSH branches for non-path
arguments is outside the model; every claim applies load only to
argument shapes that are valid for the flag.) -/
def Packet.load : Flag → Args → Option Packet
  | .PULL, .path b => some ⟨.PULL, b⟩
  | .PUSH, .path b => some ⟨.PUSH, b⟩
  | .SID, .num n => (u16be? n).map (fun body => ⟨.SID, body⟩)
  | .ATTACH, .num n => (u16be? n).map (fun body => ⟨.ATTACH, body⟩)
  | .FILE_COUNT, .num n => (u16be? n).map (fun body => ⟨.FILE_COUNT, body⟩)
  | .DIR_INFO, .dirInfo fid perm pa =>
    match u16be? fid, u16be? perm with
    | some a, some b => some ⟨.DIR_INFO, a ++ b ++ pa⟩
    | _, _ => none
  | .FILE_INFO, .fileInfo fid perm size mtime md5 pa =>
    if mtime.length = 8 then
      match u16be? fid, u16be? perm, u64be? size with
      | some a, some b, some c => some ⟨.FILE_INFO, a ++ b ++ c ++ mtime ++ fix16 md5 ++ pa⟩
      | _, _, _ => none
    else none
  | .FILE_READY, .num n => (u16be? n).map (fun body => ⟨.FILE_READY, body⟩)
  | .FILE_CHUNK, .fileChunk fid seq chunk =>
    match u16be? fid, u32be? seq with
    | some a, some b => some ⟨.FILE_CHUNK, a ++ b ++ chunk⟩
    | _, _ => none
  | .DONE, _ => (u32be? EOF).map (fun body => ⟨.DONE, body⟩)
  | .RESEND, .resend f c l =>
    if f < 256 then
      match u32be? c, u16be? l with
      | some a, some b => some ⟨.RESEND, f :: a ++ b⟩
      | _, _ => none
    else none
  | _, _ => none

/-- network.py lines 59-62, Packet.pack: the wire frame
flag, CRC32(body), length, body with format BIH followed by the body.
none models the struct.error pack raises when the body length does
not fit the H field. -/
def Packet.pack (p : Packet) : Option (List Nat) :=
  if p.length < 65536 then
    some (p.flag.val :: u32be p.chksum ++ u16be p.length ++ p.body)
  else none

/-- network.py lines 64-68, Packet.unpack_head: parse the 7-byte
prefix with format BIH and coerce the first byte with Flag(flag).
none models the struct.error on a head that is not exactly 7 bytes
and the ValueError the IntEnum coercion raises on an unknown flag
byte. -/
def Packet.unpack_head (head : List Nat) : Option (Flag × Nat × Nat) :=
  if head.length = 7 then
    match Flag.ofNat? (head.headD 0) with
    | some f => some (f, beVal ((head.drop 1).take 4), beVal (head.drop 5))
    | none => none
  else none

/-- network.py lines 70-109, Packet.unpack_body: dispatch on the flag
to the inverse body layout.  none models a UnicodeDecodeError of
bytes.decode or a struct.error of unpack when the body length does
not fit the format. -/
def Packet.unpack_body (p : Packet) : Option Args :=
  match p.flag with
  | .PULL | .PUSH => if utf8Valid p.body then some (.path p.body) else none
  | .SID | .ATTACH =>
    if p.length = 2 then some (.num (beVal p.body)) else none
  | .FILE_COUNT =>
    if p.length = 2 then some (.num (beVal p.body)) else none
  | .DIR_INFO =>
    if 4 ≤ p.length then
      some (.dirInfo (beVal (p.body.take 2)) (beVal ((p.body.drop 2).take 2))
        (p.body.drop 4))
    else none
  | .FILE_INFO =>
    if 36 ≤ p.length then
      some (.fileInfo (beVal (p.body.take 2)) (beVal ((p.body.drop 2).take 2))
        (beVal ((p.body.drop 4).take 8)) ((p.body.drop 12).take 8)
        ((p.body.drop 20).take 16) (p.body.drop 36))
    else none
  | .FILE_READY =>
    if p.length = 2 then some (.num (beVal p.body)) else none
  | .FILE_CHUNK =>
    if 6 ≤ p.length then
      some (.fileChunk (beVal (p.body.take 2)) (beVal ((p.body.drop 2).take 4))
        (p.body.drop 6))
    else none
  | .DONE =>
    if p.length = 4 then some (.done (beVal p.body)) else none
  | .RESEND =>
    if p.length = 7 then
      some (.resend (p.body.headD 0) (beVal ((p.body.drop 1).take 4))
        (beVal (p.body.drop 5)))
    else none

/-- network.py lines 111-113, Packet.is_valid: the body checksum
matches the head checksum. -/
def Packet.is_valid (p : Packet) (chksum : Nat) : Bool :=
  p.chksum == chksum

/-! ## Buffer (network.py lines 116-133) -/

/-- network.py lines 116-126: per-socket receive state.  flag is
Optional since __init__ sets it to None. -/
structure Buffer where
  waiting : PacketSnippet
  remain : Nat
  flag : Option Flag
  chksum : Nat
  data : List Nat
deriving DecidableEq

/-- network.py lines 119-126, Buffer(): waiting for a head, 7 bytes
remaining, no flag, zero checksum, empty data. -/
def Buffer.init : Buffer :=
  { waiting := .HEAD, remain := LEN_HEAD, flag := none, chksum := 0, data := [] }

/-- network.py lines 128-133, Buffer.reset: back to the initial HEAD
state. -/
def Buffer.reset (_ : Buffer) : Buffer :=
  { waiting := .HEAD, remain := LEN_HEAD, flag := none, chksum := 0, data := [] }

/-! ## ConnectionPool reader-loop parsing (network.py lines 188-254)

The reader loop body is modelled per socket.  One readable event
delivers data (at most buf.remain bytes, what sock.recv returned);
recvStep is the body of the data branch of _recv: merge the bytes
and, when remain reaches zero, parse the head or the body.  The
result is none when the Python code raises out of the loop, and
otherwise the new buffer together with the packet put on recv_q and
the packet put on send_q (at most one each per event). -/

/-- network.py lines 245-246: update the remaining length and merge
the received data into the buffer. -/
def bufAccum (buf : Buffer) (data : List Nat) : Buffer :=
  { buf with remain := buf.remain - data.length, data := buf.data ++ data }

/-- network.py lines 188-195, ConnectionPool.parse_head: unpack the
accumulated 7 bytes, record flag, chksum and body length, switch the
buffer to the BODY phase and clear the data.  none when unpack_head
raises (wrong length or unknown flag byte), which _recv does not
catch. -/
def ConnectionPool.parse_head (buf : Buffer) : Option Buffer :=
  match Packet.unpack_head buf.data with
  | none => none
  | some (f, c, l) =>
    some { waiting := .BODY, remain := l, flag := some f, chksum := c, data := [] }

/-- network.py lines 197-210, ConnectionPool.parse_body: build the
packet from the recorded flag and the accumulated data; a matching
checksum puts it on recv_q, otherwise a RESEND built from the triple
flag, chksum, length goes on send_q; either way the buffer is reset.
The result is the reset buffer, the recv_q enqueue and the send_q
enqueue.  none when the Python code would raise instead (a None flag,
or Packet.load failing), which is unreachable from states produced by
parse_head. -/
def ConnectionPool.parse_body (buf : Buffer) :
    Option (Buffer × Option Packet × Option Packet) :=
  match buf.flag with
  | none => none
  | some f =>
    let pkt : Packet := ⟨f, buf.data⟩
    if pkt.is_valid buf.chksum then
      some (buf.reset, some pkt, none)
    else
      match Packet.load .RESEND (.resend f.val buf.chksum pkt.length) with
      | none => none
      | some resend_pkt => some (buf.reset, none, some resend_pkt)

/-- network.py lines 244-252: the body of one readable event of _recv
once data has been received: merge, then parse head or body when
nothing remains. -/
def recvParse (b : Buffer) : Option (Buffer × Option Packet × Option Packet) :=
  if b.remain = 0 then
    match b.waiting with
    | .HEAD => (ConnectionPool.parse_head b).map (fun nb => (nb, none, none))
    | .BODY => ConnectionPool.parse_body b
  else some (b, none, none)

def recvStep (buf : Buffer) (data : List Nat) :
    Option (Buffer × Option Packet × Option Packet) :=
  recvParse (bufAccum buf data)

/-! ## The reader loop on one socket (network.py lines 233-254)

RState is the reader-loop state restricted to one socket: its buffer,
the packets this socket contributed to recv_q and send_q, whether the
socket has been removed, and whether an exception escaped the loop.
drive consumes a byte stream the way _recv does: each iteration asks
sock.recv for exactly buf.remain bytes and gets whatever of the
stream is available, at most buf.remain; an empty read removes the
socket.  driveN is drive with an explicit structural bound on the
number of iterations; a stream of n bytes needs at most n iterations
since every non-final iteration consumes at least one byte. -/

structure RState where
  buf : Buffer
  recv_q : List Packet
  send_q : List Packet
  closed : Bool
  crashed : Bool
deriving DecidableEq

def RState.init : RState :=
  { buf := Buffer.init, recv_q := [], send_q := [], closed := false, crashed := false }

def driveN : Nat → RState → List Nat → RState
  | 0, st, _ => st
  | _ + 1, st, [] => st
  | n + 1, st, x :: xs =>
    if st.closed = true ∨ st.crashed = true then st
    else if st.buf.remain = 0 then { st with closed := true }
    else
      match recvStep st.buf ((x :: xs).take st.buf.remain) with
      | none =>
        -- lines 245-246 ran before the parse raised, so the buffer
        -- keeps the merged bytes when the exception escapes the loop
        { st with buf := bufAccum st.buf ((x :: xs).take st.buf.remain),
                  crashed := true }
      | some (b, r, s) =>
        driveN n { buf := b, recv_q := st.recv_q ++ r.toList,
                   send_q := st.send_q ++ s.toList,
                   closed := st.closed, crashed := st.crashed }
          ((x :: xs).drop st.buf.remain)

def drive (st : RState) (seg : List Nat) : RState :=
  driveN seg.length st seg

/-! ## NetworkMixin (network.py lines 279-306)

The socket is modelled by the byte stream it will deliver; recv n
with MSG_WAITALL yields the next n bytes of the stream (fewer only at
end of stream).  A result of none means the Python call raises. -/

/-- network.py lines 282-287, NetworkMixin.send_msg: load a packet
from the arguments and pack it onto the wire.  none when load or pack
raises; otherwise the datagram sent. -/
def NetworkMixin.send_msg (flag : Flag) (args : Args) : Option (List Nat) :=
  match Packet.load flag args with
  | none => none
  | some packet => packet.pack

/-- network.py lines 289-306, NetworkMixin.recv_msg: read and parse a
head, read the body, and on a checksum mismatch send a RESEND built
by send_msg (Flag.RESEND, head) - passing the raw 7-byte head as the
single argument - then receive again.  The Flag.contains test of line
296 cannot fire in the model because unpack_head already coerced the
byte.  The explicit bound on the number of rounds makes the recursion
structural; each round consumes at least 7 bytes of the stream, so
the stream length bounds the rounds. -/
def NetworkMixin.recv_msgN : Nat → List Nat → Option Packet
  | 0, _ => none
  | fuel + 1, stream =>
    let head := stream.take LEN_HEAD
    match Packet.unpack_head head with
    | none => none
    | some (flag, chksum, len_body) =>
      let rest := stream.drop LEN_HEAD
      let body := rest.take len_body
      if crc32 body ≠ chksum then
        match NetworkMixin.send_msg .RESEND (.path head) with
        | none => none
        | some _ => NetworkMixin.recv_msgN fuel (rest.drop len_body)
      else some ⟨flag, body⟩

def NetworkMixin.recv_msg (stream : List Nat) : Option Packet :=
  NetworkMixin.recv_msgN (stream.length + 1) stream

/-! ## ConnectionPool (network.py lines 143-277)

Sockets are identified by numbers.  The two selectors are modelled by
their registration lists; the receiver selector carries the Buffer
attached as data at registration time.  The queues are lists with the
Queue maxsize semantics of the Python standard library: a put blocks
unless maxsize is non-positive (unbounded queue) or the queue holds
fewer items than maxsize.  size is an Int, as the Python constructor
accepts any int.  Threads are outside the model; the loop bodies are
modelled as transitions. -/

structure ConnectionPool where
  size : Int
  send_q : List Packet
  recv_q : List Packet
  socks : List Nat
  sender : List Nat
  receiver : List (Nat × Buffer)
  is_working : Bool
deriving DecidableEq

/-- network.py line 144: the hard cap on the pool size. -/
def ConnectionPool.max_size : Int := 128

/-- network.py lines 147-161, ConnectionPool(size): clamp the size,
create both queues with maxsize size * 5, no sockets, empty
selectors, working. -/
def ConnectionPool.init (size : Int) : ConnectionPool :=
  { size := min size ConnectionPool.max_size,
    send_q := [], recv_q := [], socks := [], sender := [], receiver := [],
    is_working := true }

/-- Queue(maxsize) admission: a put completes immediately iff the
queue is unbounded (maxsize non-positive) or not full.  Both queues
of the pool are created with maxsize size * 5. -/
def ConnectionPool.putOK (p : ConnectionPool) (q : List Packet) : Prop :=
  p.size * 5 ≤ 0 ∨ (q.length : Int) < p.size * 5

/-- network.py lines 163-165, ConnectionPool.send: put on send_q.
No is_working test. -/
def ConnectionPool.send (p : ConnectionPool) (packet : Packet) : ConnectionPool :=
  { p with send_q := p.send_q ++ [packet] }

/-- network.py lines 171-179, ConnectionPool.add: when below size,
register the socket with the sender selector for write readiness and
with the receiver selector for read readiness carrying a fresh
Buffer, add it to socks and return true; otherwise return false with
the pool unchanged. -/
def ConnectionPool.add (p : ConnectionPool) (sock : Nat) : ConnectionPool × Bool :=
  if (p.socks.length : Int) < p.size then
    ({ p with sender := p.sender ++ [sock],
              receiver := p.receiver ++ [(sock, Buffer.init)],
              socks := p.socks ++ [sock] }, true)
  else (p, false)

/-- network.py lines 181-186, ConnectionPool.remove: unregister from
both selectors, discard from socks, close the socket. -/
def ConnectionPool.remove (p : ConnectionPool) (sock : Nat) : ConnectionPool :=
  { p with sender := p.sender.erase sock,
           receiver := p.receiver.filter (fun e => e.1 ≠ sock),
           socks := p.socks.erase sock }

/-- network.py lines 265-277, ConnectionPool.stop: clear is_working;
joining the threads and closing sockets do not change the modelled
state (socks is not cleared by stop). -/
def ConnectionPool.stop (p : ConnectionPool) : ConnectionPool :=
  { p with is_working := false }

/-- network.py lines 212-231, one iteration of the _send loop on a
writable socket: dequeue a packet (or continue on Empty), pack and
transmit it; when the socket reports a connection reset, remove the
socket and insert the packet back at the head of the send queue.
reset says whether sock.send raised ConnectionResetError. -/
def ConnectionPool.sendIter (p : ConnectionPool) (sock : Nat) (reset : Bool) :
    ConnectionPool :=
  match p.send_q with
  | [] => p
  | packet :: rest =>
    if reset then
      let p1 := { p with send_q := rest }
      let p2 := p1.remove sock
      { p2 with send_q := packet :: p2.send_q }
    else { p with send_q := rest }

/-- The transitions of a ConnectionPool: the public methods plus one
iteration of either worker loop.  Queue puts only fire when the
Queue admits them (a blocked put is simply not a transition yet);
selector operations only fire on registered sockets, matching how the
loops obtain them from select. -/
inductive PoolStep : ConnectionPool → ConnectionPool → Prop where
  | send (p : ConnectionPool) (packet : Packet) :
      p.putOK p.send_q → PoolStep p (p.send packet)
  | add (p : ConnectionPool) (sock : Nat) :
      sock ∉ p.socks → PoolStep p (p.add sock).1
  | remove (p : ConnectionPool) (sock : Nat) :
      sock ∈ p.socks → PoolStep p (p.remove sock)
  | recvget (p : ConnectionPool) (packet : Packet) (rest : List Packet) :
      p.recv_q = packet :: rest → PoolStep p { p with recv_q := rest }
  | writer (p : ConnectionPool) (sock : Nat) (reset : Bool) :
      p.is_working = true → sock ∈ p.sender → PoolStep p (p.sendIter sock reset)
  | reader_eof (p : ConnectionPool) (sock : Nat) (b : Buffer) :
      p.is_working = true → (sock, b) ∈ p.receiver → PoolStep p (p.remove sock)
  | reader_data (p : ConnectionPool) (sock : Nat) (b b' : Buffer)
      (data : List Nat) (r s : Option Packet) :
      p.is_working = true → (sock, b) ∈ p.receiver →
      0 < data.length → data.length ≤ b.remain →
      recvStep b data = some (b', r, s) →
      (r.isSome = true → p.putOK p.recv_q) →
      (s.isSome = true → p.putOK p.send_q) →
      PoolStep p
        { p with
          receiver := p.receiver.map (fun e => if e.1 = sock then (sock, b') else e),
          recv_q := p.recv_q ++ r.toList,
          send_q := p.send_q ++ s.toList }
  | stop (p : ConnectionPool) : PoolStep p p.stop

/-- The states a pool constructed with the requested size can reach. -/
def Reachable (size : Int) (p : ConnectionPool) : Prop :=
  Relation.ReflTransGen PoolStep (ConnectionPool.init size) p

/-! ## Validity predicates used by the claims -/

/-- A list of genuine byte values. -/
def Bytes (l : List Nat) : Prop := ∀ x ∈ l, x < 256

/-- The argument tuples that are valid for a flag: integer fields in
range for their struct formats, path or chunk bytes, a decodable
UTF-8 path for PULL and PUSH, an 8-byte float encoding, a 16-byte
digest, and a body that fits the 16-bit length field of the head. -/
def ValidArgs : Flag → Args → Prop
  | .PULL, .path b | .PUSH, .path b => utf8Valid b = true ∧ b.length ≤ 65535
  | .SID, .num n | .ATTACH, .num n | .FILE_COUNT, .num n | .FILE_READY, .num n =>
    n < 65536
  | .DIR_INFO, .dirInfo fid perm pa =>
    fid < 65536 ∧ perm < 65536 ∧ Bytes pa ∧ pa.length ≤ 65531
  | .FILE_INFO, .fileInfo fid perm size mtime md5 pa =>
    fid < 65536 ∧ perm < 65536 ∧ size < 18446744073709551616 ∧
    mtime.length = 8 ∧ Bytes mtime ∧ md5.length = 16 ∧ Bytes md5 ∧
    Bytes pa ∧ pa.length ≤ 65499
  | .FILE_CHUNK, .fileChunk fid seq chunk =>
    fid < 65536 ∧ seq < 4294967296 ∧ Bytes chunk ∧ chunk.length ≤ 65529
  | .DONE, .done _ => True
  | .RESEND, .resend f c l => f < 256 ∧ c < 4294967296 ∧ l < 65536
  | _, _ => False

/-- The buffer states the reader loop can actually produce: in the
HEAD phase the flag is unset and head bytes are still missing, in the
BODY phase the flag is set, the checksum came from a 32-bit field and
the declared length came from a 16-bit field. -/
def WFBuf (b : Buffer) : Prop :=
  Bytes b.data ∧
  match b.waiting with
  | .HEAD => b.flag = none ∧ 0 < b.remain ∧ b.remain + b.data.length = 7
  | .BODY => b.flag ≠ none ∧ b.chksum < 4294967296 ∧ b.remain + b.data.length ≤ 65535

/-- The pool invariant: sizes in range, sockets without duplicates,
exactly one registered Buffer per socket, and, for a positive size,
both queues within the Queue capacity size * 5. -/
def PoolInv (p : ConnectionPool) : Prop :=
  p.size ≤ 128 ∧ (p.socks.length : Int) ≤ p.size ∧ p.socks.Nodup ∧
  p.receiver.map Prod.fst = p.socks ∧
  (1 ≤ p.size →
    (p.send_q.length : Int) ≤ p.size * 5 ∧ (p.recv_q.length : Int) ≤ p.size * 5)

/-! ## Helper lemmas: the big-endian integer fields -/

theorem beVal_u16be (n : Nat) (h : n < 65536) : beVal (u16be n) = n := by
  simp [beVal, u16be]
  omega

theorem beVal_u32be (n : Nat) (h : n < 4294967296) : beVal (u32be n) = n := by
  simp [beVal, u32be]
  omega

theorem beVal_u64be (n : Nat) (h : n < 18446744073709551616) :
    beVal (u64be n) = n := by
  simp [beVal, u64be]
  omega

theorem u16be_length (n : Nat) : (u16be n).length = 2 := rfl

theorem u32be_length (n : Nat) : (u32be n).length = 4 := rfl

theorem u64be_length (n : Nat) : (u64be n).length = 8 := rfl

theorem beVal_foldl_lt (l : List Nat) : ∀ a : Nat, (∀ x ∈ l, x < 256) →
    l.foldl (fun a b => a * 256 + b) a < (a + 1) * 256 ^ l.length := by
  induction l with
  | nil => intro a _; simp
  | cons x xs ih =>
    intro a h
    simp only [List.foldl_cons, List.length_cons]
    have hx : x < 256 := h x (by simp)
    have h2 := ih (a * 256 + x) (fun y hy => h y (by simp [hy]))
    have h3 : (a * 256 + x + 1) * 256 ^ xs.length ≤ ((a + 1) * 256) * 256 ^ xs.length :=
      Nat.mul_le_mul_right _ (by omega)
    calc xs.foldl (fun a b => a * 256 + b) (a * 256 + x)
        < (a * 256 + x + 1) * 256 ^ xs.length := h2
      _ ≤ ((a + 1) * 256) * 256 ^ xs.length := h3
      _ = (a + 1) * 256 ^ (xs.length + 1) := by ring

theorem beVal_lt (l : List Nat) (h : ∀ x ∈ l, x < 256) :
    beVal l < 256 ^ l.length := by
  simpa using beVal_foldl_lt l 0 h

theorem u16be_bytes (n : Nat) : ∀ x ∈ u16be n, x < 256 := by
  simp [u16be]
  omega

theorem u32be_bytes (n : Nat) : ∀ x ∈ u32be n, x < 256 := by
  simp [u32be]
  omega

/-! ## Helper lemmas: Flag and CRC32 -/

theorem flag_ofNat_val (f : Flag) : Flag.ofNat? f.val = some f := by
  cases f <;> rfl

theorem flag_val_lt (f : Flag) : f.val < 256 := by
  cases f <;> decide

theorem crc32Round_lt (c : Nat) (h : c < 4294967296) :
    crc32Round c < 4294967296 := by
  unfold crc32Round
  split
  · exact Nat.xor_lt_two_pow (n := 32) (by omega) (by norm_num)
  · omega

theorem crc32Byte_lt (crc b : Nat) (h : crc < 4294967296) :
    crc32Byte crc b < 4294967296 := by
  unfold crc32Byte
  have h0 : crc ^^^ b % 256 < 4294967296 :=
    Nat.xor_lt_two_pow (n := 32) h (by have := Nat.mod_lt b (y := 256) (by norm_num); omega)
  exact crc32Round_lt _ (crc32Round_lt _ (crc32Round_lt _ (crc32Round_lt _
    (crc32Round_lt _ (crc32Round_lt _ (crc32Round_lt _ (crc32Round_lt _ h0)))))))

theorem crc32_lt (data : List Nat) : crc32 data < 4294967296 := by
  unfold crc32
  have : ∀ l : List Nat, ∀ a : Nat, a < 4294967296 →
      l.foldl crc32Byte a < 4294967296 := by
    intro l
    induction l with
    | nil => intro a ha; simpa using ha
    | cons x xs ih =>
      intro a ha
      simpa using ih (crc32Byte a x) (crc32Byte_lt a x ha)
  exact Nat.xor_lt_two_pow (n := 32) (this data 4294967295 (by norm_num)) (by norm_num)

/-! ## Helper lemmas: the frame head -/

/-- The head encoder: what pack writes in front of the body. -/
theorem unpack_head_encode (f : Flag) (c l : Nat) (hc : c < 4294967296)
    (hl : l < 65536) :
    Packet.unpack_head (f.val :: u32be c ++ u16be l) = some (f, c, l) := by
  simp [Packet.unpack_head, u32be, u16be, flag_ofNat_val f, beVal]
  omega

theorem Packet.pack_eq (p : Packet) (h : p.body.length < 65536) :
    p.pack = some (p.flag.val :: u32be p.chksum ++ u16be p.body.length ++ p.body) := by
  simp [Packet.pack, Packet.length, h]

theorem fix16_eq (l : List Nat) (h : l.length = 16) : fix16 l = l := by
  unfold fix16
  rw [h, List.take_of_length_le (le_of_eq h)]
  simp

/-- The head of every packable frame parses back to the packet
fields. -/
theorem head_roundtrip (p : Packet) (h : p.body.length < 65536) :
    ∃ bs, p.pack = some bs ∧
      Packet.unpack_head (bs.take 7) = some (p.flag, crc32 p.body, p.body.length) := by
  refine ⟨_, Packet.pack_eq p h, ?_⟩
  have h2 : p.flag.val :: u32be p.chksum ++ u16be p.body.length ++ p.body =
      (p.flag.val :: u32be p.chksum ++ u16be p.body.length) ++ p.body := by simp
  rw [h2, List.take_left' (by simp [u32be, u16be])]
  have h3 := unpack_head_encode p.flag p.chksum p.body.length (crc32_lt _) h
  simpa [Packet.chksum] using h3

/-! ## Reader loop reassembly lemmas -/

theorem driveN_nil (k : Nat) (st : RState) : driveN k st [] = st := by
  cases k <;> rfl

theorem recvStep_lt (buf : Buffer) (data : List Nat) (h : data.length < buf.remain) :
    recvStep buf data = some (bufAccum buf data, none, none) := by
  unfold recvStep recvParse
  have hne : (bufAccum buf data).remain ≠ 0 := by
    simp [bufAccum]
    omega
  simp [hne]

theorem bufAccum_append (buf : Buffer) (d1 d2 : List Nat) :
    bufAccum (bufAccum buf d1) d2 = bufAccum buf (d1 ++ d2) := by
  unfold bufAccum
  simp [Nat.sub_sub]

theorem recvStep_append (buf : Buffer) (d1 d2 : List Nat) :
    recvStep buf (d1 ++ d2) = recvStep (bufAccum buf d1) d2 := by
  unfold recvStep
  rw [bufAccum_append]

theorem driveN_fuel : ∀ (m n : Nat) (st : RState) (seg : List Nat),
    seg.length ≤ m → seg.length ≤ n → driveN m st seg = driveN n st seg := by
  intro m
  induction m with
  | zero =>
    intro n st seg hm _
    have hseg : seg = [] := List.eq_nil_of_length_eq_zero (by omega)
    subst hseg
    cases n <;> rfl
  | succ m ih =>
    intro n st seg hm hn
    cases seg with
    | nil => cases n <;> rfl
    | cons x xs =>
      cases n with
      | zero => simp at hn
      | succ n' =>
        simp only [driveN]
        by_cases hcc : st.closed = true ∨ st.crashed = true
        · simp [hcc]
        · simp only [if_neg hcc]
          by_cases hr0 : st.buf.remain = 0
          · simp [hr0]
          · simp only [if_neg hr0]
            cases hstep : recvStep st.buf ((x :: xs).take st.buf.remain) with
            | none => rfl
            | some t =>
              obtain ⟨b, r, s⟩ := t
              apply ih
              · simp only [List.length_drop, List.length_cons] at *
                omega
              · simp only [List.length_drop, List.length_cons] at *
                omega

theorem drive_fuel (m : Nat) (st : RState) (seg : List Nat) (hm : seg.length ≤ m) :
    driveN m st seg = drive st seg :=
  driveN_fuel m seg.length st seg hm le_rfl

theorem drive_stuck (st : RState) (seg : List Nat)
    (h : st.closed = true ∨ st.crashed = true) : drive st seg = st := by
  cases seg with
  | nil => rfl
  | cons x xs =>
    unfold drive
    simp only [List.length_cons]
    rw [driveN]
    simp [h]

/-- One unfolding of the reader loop on a nonempty stream when the
pending read length is zero: recv(0) returns no bytes and the socket
is removed. -/
theorem drive_cons0 (st : RState) (x : Nat) (xs : List Nat)
    (hcc : ¬(st.closed = true ∨ st.crashed = true)) (hr0 : st.buf.remain = 0) :
    drive st (x :: xs) = { st with closed := true } := by
  unfold drive
  simp only [List.length_cons]
  rw [driveN]
  simp [hcc, hr0]

/-- One unfolding of the reader loop on a nonempty stream with a
positive pending read length. -/
theorem drive_cons (st : RState) (x : Nat) (xs : List Nat)
    (hcc : ¬(st.closed = true ∨ st.crashed = true)) (hr0 : st.buf.remain ≠ 0) :
    drive st (x :: xs) =
      match recvStep st.buf ((x :: xs).take st.buf.remain) with
      | none =>
        { st with buf := bufAccum st.buf ((x :: xs).take st.buf.remain),
                  crashed := true }
      | some (b, r, s) =>
        drive { buf := b, recv_q := st.recv_q ++ r.toList,
                send_q := st.send_q ++ s.toList,
                closed := st.closed, crashed := st.crashed }
          ((x :: xs).drop st.buf.remain) := by
  unfold drive
  simp only [List.length_cons]
  rw [driveN]
  simp only [if_neg hcc, if_neg hr0]
  cases hstep : recvStep st.buf ((x :: xs).take st.buf.remain) with
  | none => rfl
  | some t =>
    obtain ⟨b, r, s⟩ := t
    apply drive_fuel
    rw [List.length_drop]
    simp only [List.length_cons]
    omega

/-- Splitting the byte stream at any boundary does not change the
outcome of the reader loop: processing two consecutive segments is
processing their concatenation. -/
theorem drive_append : ∀ (n : Nat) (s1 : List Nat) (st : RState) (s2 : List Nat),
    s1.length ≤ n → drive (drive st s1) s2 = drive st (s1 ++ s2) := by
  intro n
  induction n with
  | zero =>
    intro s1 st s2 h
    have hseg : s1 = [] := List.eq_nil_of_length_eq_zero (by omega)
    subst hseg
    simp [drive, driveN_nil]
  | succ n ih =>
    intro s1 st s2 hlen
    cases s1 with
    | nil => simp [drive, driveN_nil]
    | cons x xs =>
      by_cases hcc : st.closed = true ∨ st.crashed = true
      · rw [drive_stuck st (x :: xs) hcc, drive_stuck st s2 hcc,
          drive_stuck st (x :: xs ++ s2) hcc]
      · by_cases hr0 : st.buf.remain = 0
        · rw [drive_cons0 st x xs hcc hr0,
            show x :: xs ++ s2 = x :: (xs ++ s2) from rfl,
            drive_cons0 st x (xs ++ s2) hcc hr0]
          exact drive_stuck _ s2 (by simp)
        · rcases Nat.lt_or_ge (x :: xs).length st.buf.remain with hlt | hge
          · -- the whole first segment is shorter than the wanted read
            have htake : (x :: xs).take st.buf.remain = x :: xs :=
              List.take_of_length_le (Nat.le_of_lt hlt)
            have hdrop : (x :: xs).drop st.buf.remain = [] :=
              List.drop_eq_nil_of_le (Nat.le_of_lt hlt)
            have h1 : drive st (x :: xs) =
                { st with buf := bufAccum st.buf (x :: xs) } := by
              rw [drive_cons st x xs hcc hr0, htake, recvStep_lt st.buf (x :: xs) hlt,
                hdrop]
              simp [drive, driveN_nil]
            rw [h1]
            cases s2 with
            | nil =>
              rw [List.append_nil, h1]
              simp [drive, driveN_nil]
            | cons y ys =>
              have hcc' : ¬(({ st with buf := bufAccum st.buf (x :: xs) } : RState).closed
                  = true ∨
                  ({ st with buf := bufAccum st.buf (x :: xs) } : RState).crashed = true) := by
                simpa using hcc
              have hr0' : (bufAccum st.buf (x :: xs)).remain ≠ 0 := by
                show st.buf.remain - (x :: xs).length ≠ 0
                simp only [List.length_cons] at hlt ⊢
                omega
              rw [drive_cons _ y ys hcc' hr0',
                show x :: xs ++ (y :: ys) = x :: (xs ++ (y :: ys)) from rfl,
                drive_cons st x (xs ++ (y :: ys)) hcc hr0]
              have htake2 : (x :: (xs ++ (y :: ys))).take st.buf.remain =
                  (x :: xs) ++ (y :: ys).take ((bufAccum st.buf (x :: xs)).remain) := by
                show ((x :: xs) ++ (y :: ys)).take st.buf.remain = _
                rw [List.take_append_eq_append_take, htake]
                rfl
              have hdrop2 : (x :: (xs ++ (y :: ys))).drop st.buf.remain =
                  (y :: ys).drop ((bufAccum st.buf (x :: xs)).remain) := by
                show ((x :: xs) ++ (y :: ys)).drop st.buf.remain = _
                rw [List.drop_append_eq_append_drop, hdrop]
                rfl
              rw [htake2, hdrop2, recvStep_append]
              cases hstep2 : recvStep (bufAccum st.buf (x :: xs))
                  ((y :: ys).take ((bufAccum st.buf (x :: xs)).remain)) with
              | none =>
                simp [bufAccum_append]
              | some t =>
                obtain ⟨b2, r2, s2'⟩ := t
                rfl
          · -- the read is filled from the first segment alone
            have htake : (x :: (xs ++ s2)).take st.buf.remain =
                (x :: xs).take st.buf.remain := by
              show ((x :: xs) ++ s2).take st.buf.remain = _
              rw [List.take_append_eq_append_take, Nat.sub_eq_zero_of_le hge]
              simp
            have hdrop : (x :: (xs ++ s2)).drop st.buf.remain =
                (x :: xs).drop st.buf.remain ++ s2 := by
              show ((x :: xs) ++ s2).drop st.buf.remain = _
              rw [List.drop_append_eq_append_drop, Nat.sub_eq_zero_of_le hge]
              simp
            rw [drive_cons st x xs hcc hr0,
              show x :: xs ++ s2 = x :: (xs ++ s2) from rfl,
              drive_cons st x (xs ++ s2) hcc hr0, htake, hdrop]
            cases hstep : recvStep st.buf ((x :: xs).take st.buf.remain) with
            | none =>
              exact drive_stuck _ s2 (by simp)
            | some t =>
              obtain ⟨b, r, s⟩ := t
              exact ih ((x :: xs).drop st.buf.remain) _ s2
                (by simp only [List.length_drop, List.length_cons] at hlen ⊢; omega)

/-- A fresh reader consuming exactly the packed frame of a packet
with a nonempty body delivers the packet and returns to the fresh
buffer. -/
theorem drive_frame (f : Flag) (body : List Nat) (h1 : 1 ≤ body.length)
    (h2 : body.length < 65536) :
    drive RState.init (f.val :: u32be (crc32 body) ++ u16be body.length ++ body) =
      { buf := Buffer.init, recv_q := [⟨f, body⟩], send_q := [], closed := false,
        crashed := false } := by
  have hH7 : (f.val :: u32be (crc32 body) ++ u16be body.length).length = 7 := by
    simp [u32be, u16be]
  have hsplit : f.val :: u32be (crc32 body) ++ u16be body.length ++ body =
      (f.val :: u32be (crc32 body) ++ u16be body.length) ++ body := by simp
  rw [hsplit, ← drive_append 7 (f.val :: u32be (crc32 body) ++ u16be body.length)
    RState.init body (by rw [hH7])]
  have hstep1 : recvStep RState.init.buf
      (f.val :: u32be (crc32 body) ++ u16be body.length) =
      some (⟨.BODY, body.length, some f, crc32 body, []⟩, none, none) := by
    unfold recvStep
    have hacc : bufAccum RState.init.buf
        (f.val :: u32be (crc32 body) ++ u16be body.length) =
        ⟨.HEAD, 0, none, 0, f.val :: u32be (crc32 body) ++ u16be body.length⟩ := by
      unfold bufAccum RState.init Buffer.init
      simp [LEN_HEAD, u32be, u16be]
    rw [hacc]
    unfold recvParse
    have henc : Packet.unpack_head (f.val :: (u32be (crc32 body) ++ u16be body.length))
        = some (f, crc32 body, body.length) := by
      simpa using unpack_head_encode f (crc32 body) body.length (crc32_lt body) h2
    simp [ConnectionPool.parse_head, henc]
  have hdr1 : drive RState.init (f.val :: u32be (crc32 body) ++ u16be body.length) =
      ⟨⟨.BODY, body.length, some f, crc32 body, []⟩, [], [], false, false⟩ := by
    rw [show f.val :: u32be (crc32 body) ++ u16be body.length =
        f.val :: (u32be (crc32 body) ++ u16be body.length) from by simp]
    rw [drive_cons _ _ _ (by norm_num [RState.init]) (by norm_num [RState.init,
      Buffer.init, LEN_HEAD])]
    have hr : RState.init.buf.remain = 7 := rfl
    rw [hr]
    have ht : (f.val :: (u32be (crc32 body) ++ u16be body.length)).take 7 =
        f.val :: (u32be (crc32 body) ++ u16be body.length) :=
      List.take_of_length_le (by simp [u32be, u16be])
    have hd : (f.val :: (u32be (crc32 body) ++ u16be body.length)).drop 7 = [] :=
      List.drop_eq_nil_of_le (by simp [u32be, u16be])
    rw [ht, hd]
    rw [show f.val :: (u32be (crc32 body) ++ u16be body.length) =
        f.val :: u32be (crc32 body) ++ u16be body.length from by simp, hstep1]
    simp [drive, driveN_nil, RState.init]
  rw [hdr1]
  cases hbody : body with
  | nil => rw [hbody] at h1; simp at h1
  | cons b0 bs =>
    rw [← hbody]
    have hne : (⟨⟨.BODY, body.length, some f, crc32 body, []⟩, [], [], false, false⟩
        : RState).buf.remain ≠ 0 := by
      show body.length ≠ 0
      omega
    rw [hbody]
    rw [drive_cons _ _ _ (by norm_num) (by rw [← hbody] at *; exact hne)]
    have hr2 : ((⟨⟨.BODY, (b0 :: bs).length, some f, crc32 (b0 :: bs), []⟩, [], [],
        false, false⟩ : RState)).buf.remain = (b0 :: bs).length := rfl
    rw [hr2, List.take_length, List.drop_length]
    have hstep2 : recvStep ⟨.BODY, (b0 :: bs).length, some f, crc32 (b0 :: bs), []⟩
        (b0 :: bs) = some (⟨.HEAD, LEN_HEAD, none, 0, []⟩, some ⟨f, b0 :: bs⟩, none) := by
      unfold recvStep
      have hacc : bufAccum ⟨.BODY, (b0 :: bs).length, some f, crc32 (b0 :: bs), []⟩
          (b0 :: bs) = ⟨.BODY, 0, some f, crc32 (b0 :: bs), b0 :: bs⟩ := by
        unfold bufAccum
        simp
      rw [hacc]
      unfold recvParse
      simp [ConnectionPool.parse_body, Packet.is_valid, Packet.chksum, Buffer.reset]
    rw [hstep2]
    simp [drive, driveN_nil, Buffer.init]

/-! ## Claim C1 -/

/-- Claim C1 is refuted for frames whose declared body length is 0:
the packed frame of a PULL packet with empty body (a valid frame, its
CRC32 field matches the empty body) leaves the reader with an empty
recv_q and a Buffer stuck in the BODY phase with remain = 0 - the
packet is never delivered, and the next readable event would remove
the socket since recv(0) returns no bytes. -/
theorem c1_counterexample :
    Packet.pack ⟨Flag.PULL, []⟩ = some [1, 0, 0, 0, 0, 0, 0] ∧
    (drive RState.init [1, 0, 0, 0, 0, 0, 0]).recv_q = [] ∧
    (drive RState.init [1, 0, 0, 0, 0, 0, 0]).buf.waiting = PacketSnippet.BODY ∧
    (drive RState.init [1, 0, 0, 0, 0, 0, 0]).buf.remain = 0 := by
  refine ⟨by decide, by decide, by decide, by decide⟩

/-- Claim C1 amended: for every well-formed frame of a packet whose
body is nonempty (1 to 65535 body bytes), feeding the frame to a
fresh per-socket Buffer split at every byte boundary i from 0 to the
frame length delivers exactly the one packet to recv_q - nothing on
send_q, no crash, no removal - and resets the Buffer for the next
frame.  Frames with declared body length 0 are excluded: they stall
the Buffer (see the counterexample). -/
theorem c1_amended (f : Flag) (body frame : List Nat) (i : Nat)
    (hb : 1 ≤ body.length)
    (hfr : Packet.pack ⟨f, body⟩ = some frame)
    (hi : i ≤ frame.length) :
    drive (drive RState.init (frame.take i)) (frame.drop i) =
      { buf := Buffer.init, recv_q := [⟨f, body⟩], send_q := [], closed := false,
        crashed := false } := by
  have hlen : body.length < 65536 := by
    by_contra hcon
    simp [Packet.pack, Packet.length, hcon] at hfr
  have hframe : frame = f.val :: u32be (crc32 body) ++ u16be body.length ++ body := by
    rw [Packet.pack_eq _ hlen] at hfr
    simpa [Packet.chksum] using hfr.symm
  rw [drive_append frame.length (frame.take i) RState.init (frame.drop i)
    (by simp), List.take_append_drop, hframe]
  exact drive_frame f body hb hlen

/-- Witness for Claim C1: the PULL frame of the one-byte body 97,
split after the third byte. -/
theorem c1_amended_witness :
    (1 ≤ ([97] : List Nat).length) ∧
    Packet.pack ⟨Flag.PULL, [97]⟩ = some [1, 232, 183, 190, 67, 0, 1, 97] ∧
    drive (drive RState.init ([1, 232, 183, 190, 67, 0, 1, 97].take 3))
        ([1, 232, 183, 190, 67, 0, 1, 97].drop 3) =
      { buf := Buffer.init, recv_q := [⟨Flag.PULL, [97]⟩], send_q := [],
        closed := false, crashed := false } :=
  ⟨by decide, by decide,
   c1_amended Flag.PULL [97] [1, 232, 183, 190, 67, 0, 1, 97] 3 (by decide)
     (by decide) (by decide)⟩

/-! ## Claim C2 -/

/-- Claim C2: for every flag and every argument tuple valid for it,
the loaded packet round-trips: the 7-byte head of pack() parses back
to the flag, the CRC32 of the body and the body length, and
unpack_body returns values from which load rebuilds exactly the same
packet. -/
theorem c2_roundtrip (flag : Flag) (args : Args) (p : Packet)
    (hv : ValidArgs flag args) (hl : Packet.load flag args = some p) :
    (∃ bs, p.pack = some bs ∧
      Packet.unpack_head (bs.take 7) = some (flag, crc32 p.body, p.body.length)) ∧
    (∃ args2, p.unpack_body = some args2 ∧ Packet.load flag args2 = some p) := by
  cases flag <;> cases args <;> simp only [ValidArgs] at hv
  case PULL.path b =>
    obtain ⟨hu, hlen⟩ := hv
    simp only [Packet.load, Option.some.injEq] at hl
    subst hl
    exact ⟨head_roundtrip _ (Nat.lt_succ_of_le hlen),
      ⟨.path b, by simp [Packet.unpack_body, hu], by simp [Packet.load]⟩⟩
  case PUSH.path b =>
    obtain ⟨hu, hlen⟩ := hv
    simp only [Packet.load, Option.some.injEq] at hl
    subst hl
    exact ⟨head_roundtrip _ (Nat.lt_succ_of_le hlen),
      ⟨.path b, by simp [Packet.unpack_body, hu], by simp [Packet.load]⟩⟩
  case SID.num n =>
    simp only [Packet.load, u16be?, if_pos hv, Option.map_some', Option.some.injEq] at hl
    subst hl
    refine ⟨head_roundtrip _ (by norm_num [u16be]), ⟨.num n, ?_, ?_⟩⟩
    · simp [Packet.unpack_body, Packet.length, u16be_length, beVal_u16be n hv]
    · simp [Packet.load, u16be?, hv]
  case ATTACH.num n =>
    simp only [Packet.load, u16be?, if_pos hv, Option.map_some', Option.some.injEq] at hl
    subst hl
    refine ⟨head_roundtrip _ (by norm_num [u16be]), ⟨.num n, ?_, ?_⟩⟩
    · simp [Packet.unpack_body, Packet.length, u16be_length, beVal_u16be n hv]
    · simp [Packet.load, u16be?, hv]
  case FILE_COUNT.num n =>
    simp only [Packet.load, u16be?, if_pos hv, Option.map_some', Option.some.injEq] at hl
    subst hl
    refine ⟨head_roundtrip _ (by norm_num [u16be]), ⟨.num n, ?_, ?_⟩⟩
    · simp [Packet.unpack_body, Packet.length, u16be_length, beVal_u16be n hv]
    · simp [Packet.load, u16be?, hv]
  case FILE_READY.num n =>
    simp only [Packet.load, u16be?, if_pos hv, Option.map_some', Option.some.injEq] at hl
    subst hl
    refine ⟨head_roundtrip _ (by norm_num [u16be]), ⟨.num n, ?_, ?_⟩⟩
    · simp [Packet.unpack_body, Packet.length, u16be_length, beVal_u16be n hv]
    · simp [Packet.load, u16be?, hv]
  case DIR_INFO.dirInfo fid perm pa =>
    obtain ⟨h1, h2, h3, h4⟩ := hv
    simp only [Packet.load, u16be?, if_pos h1, if_pos h2, Option.some.injEq] at hl
    subst hl
    have e1 : (u16be fid ++ (u16be perm ++ pa)).take 2 = u16be fid :=
      List.take_left' (u16be_length fid)
    have e2 : (u16be fid ++ (u16be perm ++ pa)).drop 2 = u16be perm ++ pa :=
      List.drop_left' (u16be_length fid)
    have e3 : (u16be perm ++ pa).take 2 = u16be perm :=
      List.take_left' (u16be_length perm)
    have e4 : (u16be fid ++ (u16be perm ++ pa)).drop 4 = pa := by
      rw [show u16be fid ++ (u16be perm ++ pa) = (u16be fid ++ u16be perm) ++ pa by simp]
      exact List.drop_left' (by simp [u16be])
    have elen : (u16be fid ++ u16be perm ++ pa).length = 4 + pa.length := by
      simp [u16be]
      omega
    have hcond : 4 ≤ (u16be fid ++ u16be perm ++ pa).length := by omega
    refine ⟨head_roundtrip _ (show (u16be fid ++ u16be perm ++ pa).length < 65536 by omega),
      ⟨.dirInfo fid perm pa, ?_, ?_⟩⟩
    · simp [Packet.unpack_body, Packet.length, hcond, e1, e2, e3, e4,
        beVal_u16be fid h1, beVal_u16be perm h2]
      simp only [u16be_length]
      omega
    · simp [Packet.load, u16be?, h1, h2]
  case FILE_INFO.fileInfo fid perm size mtime md5 pa =>
    obtain ⟨h1, h2, h3, h4, h5, h6, h7, h8, h9⟩ := hv
    rw [Packet.load] at hl
    rw [if_pos h4] at hl
    simp only [u16be?, u64be?, if_pos h1, if_pos h2, if_pos h3, Option.some.injEq] at hl
    subst hl
    rw [fix16_eq md5 h6]
    have elen : (u16be fid ++ u16be perm ++ u64be size ++ mtime ++ md5 ++ pa).length
        = 36 + pa.length := by
      simp [u16be, u64be, h4, h6]
      try omega
    have e1 : (u16be fid ++ (u16be perm ++ (u64be size ++ (mtime ++ (md5 ++ pa))))).take 2
        = u16be fid := List.take_left' (u16be_length fid)
    have e2 : (u16be fid ++ (u16be perm ++ (u64be size ++ (mtime ++ (md5 ++ pa))))).drop 2
        = u16be perm ++ (u64be size ++ (mtime ++ (md5 ++ pa))) :=
      List.drop_left' (u16be_length fid)
    have e3 : (u16be perm ++ (u64be size ++ (mtime ++ (md5 ++ pa)))).take 2 = u16be perm :=
      List.take_left' (u16be_length perm)
    have e4 : (u16be fid ++ (u16be perm ++ (u64be size ++ (mtime ++ (md5 ++ pa))))).drop 4
        = u64be size ++ (mtime ++ (md5 ++ pa)) := by
      rw [show u16be fid ++ (u16be perm ++ (u64be size ++ (mtime ++ (md5 ++ pa))))
          = (u16be fid ++ u16be perm) ++ (u64be size ++ (mtime ++ (md5 ++ pa))) by simp]
      exact List.drop_left' (by simp [u16be])
    have e5 : (u64be size ++ (mtime ++ (md5 ++ pa))).take 8 = u64be size :=
      List.take_left' (u64be_length size)
    have e6 : (u16be fid ++ (u16be perm ++ (u64be size ++ (mtime ++ (md5 ++ pa))))).drop 12
        = mtime ++ (md5 ++ pa) := by
      rw [show u16be fid ++ (u16be perm ++ (u64be size ++ (mtime ++ (md5 ++ pa))))
          = (u16be fid ++ u16be perm ++ u64be size) ++ (mtime ++ (md5 ++ pa)) by simp]
      exact List.drop_left' (by simp [u16be, u64be])
    have e7 : (mtime ++ (md5 ++ pa)).take 8 = mtime := List.take_left' h4
    have e8 : (u16be fid ++ (u16be perm ++ (u64be size ++ (mtime ++ (md5 ++ pa))))).drop 20
        = md5 ++ pa := by
      rw [show u16be fid ++ (u16be perm ++ (u64be size ++ (mtime ++ (md5 ++ pa))))
          = (u16be fid ++ u16be perm ++ u64be size ++ mtime) ++ (md5 ++ pa) by simp]
      exact List.drop_left' (by simp [u16be, u64be, h4])
    have e9 : (md5 ++ pa).take 16 = md5 := List.take_left' h6
    have e10 : (u16be fid ++ (u16be perm ++ (u64be size ++ (mtime ++ (md5 ++ pa))))).drop 36
        = pa := by
      rw [show u16be fid ++ (u16be perm ++ (u64be size ++ (mtime ++ (md5 ++ pa))))
          = (u16be fid ++ u16be perm ++ u64be size ++ mtime ++ md5) ++ pa by simp]
      exact List.drop_left' (by simp [u16be, u64be, h4, h6])
    have hcond : 36 ≤ (u16be fid ++ u16be perm ++ u64be size ++ mtime ++ md5 ++ pa).length := by
      omega
    refine ⟨head_roundtrip _
      (show (u16be fid ++ u16be perm ++ u64be size ++ mtime ++ md5 ++ pa).length < 65536 by
        omega),
      ⟨.fileInfo fid perm size mtime md5 pa, ?_, ?_⟩⟩
    · simp [Packet.unpack_body, Packet.length, hcond, e1, e2, e3, e4, e5, e6, e7, e8,
        e9, e10, beVal_u16be fid h1, beVal_u16be perm h2, beVal_u64be size h3]
      simp only [u16be_length, u64be_length, h4, h6]
      omega
    · rw [Packet.load, if_pos h4]
      simp [u16be?, u64be?, h1, h2, h3, fix16_eq md5 h6]
  case FILE_CHUNK.fileChunk fid seq chunk =>
    obtain ⟨h1, h2, h3, h4⟩ := hv
    simp only [Packet.load, u16be?, u32be?, if_pos h1, if_pos h2, Option.some.injEq] at hl
    subst hl
    have e1 : (u16be fid ++ (u32be seq ++ chunk)).take 2 = u16be fid :=
      List.take_left' (u16be_length fid)
    have e2 : (u16be fid ++ (u32be seq ++ chunk)).drop 2 = u32be seq ++ chunk :=
      List.drop_left' (u16be_length fid)
    have e3 : (u32be seq ++ chunk).take 4 = u32be seq :=
      List.take_left' (u32be_length seq)
    have e4 : (u16be fid ++ (u32be seq ++ chunk)).drop 6 = chunk := by
      rw [show u16be fid ++ (u32be seq ++ chunk) = (u16be fid ++ u32be seq) ++ chunk by simp]
      exact List.drop_left' (by simp [u16be, u32be])
    have elen : (u16be fid ++ u32be seq ++ chunk).length = 6 + chunk.length := by
      simp [u16be, u32be]
      try omega
    have hcond : 6 ≤ (u16be fid ++ u32be seq ++ chunk).length := by omega
    refine ⟨head_roundtrip _ (show (u16be fid ++ u32be seq ++ chunk).length < 65536 by omega),
      ⟨.fileChunk fid seq chunk, ?_, ?_⟩⟩
    · simp [Packet.unpack_body, Packet.length, hcond, e1, e2, e3, e4,
        beVal_u16be fid h1, beVal_u32be seq h2]
      simp only [u16be_length, u32be_length]
      omega
    · simp [Packet.load, u16be?, u32be?, h1, h2]
  case DONE.done n =>
    have he : EOF < 4294967296 := by norm_num [EOF]
    simp only [Packet.load, u32be?, if_pos he, Option.map_some', Option.some.injEq] at hl
    subst hl
    refine ⟨head_roundtrip _ (by norm_num [u32be]),
      ⟨.done (beVal (u32be EOF)), ?_, ?_⟩⟩
    · simp [Packet.unpack_body, Packet.length, u32be_length]
    · simp [Packet.load, u32be?, he]
  case RESEND.resend f c l =>
    obtain ⟨h1, h2, h3⟩ := hv
    simp only [Packet.load, u32be?, u16be?, if_pos h1, if_pos h2, if_pos h3,
      Option.some.injEq] at hl
    subst hl
    have e0 : f :: u32be c ++ u16be l = (f :: u32be c) ++ u16be l := rfl
    have e1 : ((f :: u32be c) ++ u16be l).headD 0 = f := rfl
    have e2 : ((f :: u32be c) ++ u16be l).drop 1 = u32be c ++ u16be l := rfl
    have e3 : (u32be c ++ u16be l).take 4 = u32be c := List.take_left' (u32be_length c)
    have e4 : ((f :: u32be c) ++ u16be l).drop 5 = u16be l :=
      List.drop_left' (by simp [u32be])
    have elen : (f :: u32be c ++ u16be l).length = 7 := by simp [u32be, u16be]
    refine ⟨head_roundtrip _ (show (f :: u32be c ++ u16be l).length < 65536 by omega),
      ⟨.resend f c l, ?_, ?_⟩⟩
    · simp [Packet.unpack_body, Packet.length, elen, e0, e1, e2, e3, e4,
        beVal_u32be c h2, beVal_u16be l h3]
      have e5 : (u32be c ++ u16be l).drop 4 = u16be l := List.drop_left' (u32be_length c)
      exact ⟨by simp [u32be, u16be], by rw [e5, beVal_u16be l h3]⟩
    · simp [Packet.load, u32be?, u16be?, h1, h2, h3]

/-- Witness for Claim C2, at flag SID with argument 3. -/
theorem c2_roundtrip_witness :
    ValidArgs .SID (.num 3) ∧
    ((∃ bs, (Packet.mk .SID (u16be 3)).pack = some bs ∧
      Packet.unpack_head (bs.take 7) = some (.SID, crc32 (u16be 3), (u16be 3).length)) ∧
    (∃ args2, (Packet.mk .SID (u16be 3)).unpack_body = some args2 ∧
      Packet.load .SID args2 = some (Packet.mk .SID (u16be 3)))) :=
  ⟨by norm_num [ValidArgs],
   c2_roundtrip .SID (.num 3) ⟨.SID, u16be 3⟩ (by norm_num [ValidArgs])
     (by simp [Packet.load, u16be?])⟩

/-! ## Claim C3 -/

/-- Claim C3: a Buffer in the BODY phase that has received its whole
body but whose data fails the CRC32 check against the head checksum
delivers nothing to recv_q, puts on send_q a RESEND packet whose body
is the original flag as u8, the original chksum as u32 and the
received body length as u16, and is reset to the initial HEAD state
with remain = LEN_HEAD and empty data. -/
theorem c3_resend_reset (buf : Buffer) (f : Flag)
    (hw : buf.waiting = .BODY) (hr : buf.remain = 0) (hf : buf.flag = some f)
    (hc : crc32 buf.data ≠ buf.chksum) (h32 : buf.chksum < 4294967296)
    (hlen : buf.data.length < 65536) :
    ConnectionPool.parse_body buf =
      some (⟨.HEAD, LEN_HEAD, none, 0, []⟩, none,
        some ⟨Flag.RESEND, f.val :: u32be buf.chksum ++ u16be buf.data.length⟩) := by
  unfold ConnectionPool.parse_body
  rw [hf]
  have hv : (Packet.mk f buf.data).is_valid buf.chksum = false := by
    simp [Packet.is_valid, Packet.chksum, hc]
  simp [hv, Packet.load, Packet.length, flag_val_lt f, u32be?, u16be?, h32, hlen,
    Buffer.reset]

theorem c3_resend_reset_witness :
    crc32 [97] ≠ 1 ∧
    ConnectionPool.parse_body ⟨.BODY, 0, some .PULL, 1, [97]⟩ =
      some (⟨.HEAD, LEN_HEAD, none, 0, []⟩, none,
        some ⟨Flag.RESEND, Flag.PULL.val :: u32be 1 ++ u16be 1⟩) :=
  ⟨by decide,
   c3_resend_reset ⟨.BODY, 0, some .PULL, 1, [97]⟩ .PULL rfl rfl rfl (by decide)
     (by norm_num) (by norm_num)⟩

/-! ## Claim C4 -/

theorem wf_reset (b : Buffer) : WFBuf b.reset := by
  unfold WFBuf Buffer.reset
  refine ⟨?_, rfl, by norm_num [LEN_HEAD], by norm_num [LEN_HEAD]⟩
  intro x hx
  cases hx

/-- Claim C4 is refuted: a 7-byte head whose flag byte is not a Flag
member makes parse_head raise ValueError out of the reader loop; on
the concrete head of seven zero bytes the loop crashes. -/
theorem c4_counterexample :
    (drive RState.init [0, 0, 0, 0, 0, 0, 0]).crashed = true ∧
    Flag.ofNat? 0 = none := by
  exact ⟨by decide, rfl⟩

/-- Claim C4 amended: processing one readable event of the reader
loop raises if and only if the event completes a 7-byte head whose
flag byte is not a member of the Flag set (the uncaught ValueError of
the IntEnum coercion); every other decode outcome is handled - a
checksum failure becomes a RESEND and a reset buffer, a valid body is
enqueued - and the resulting buffer is well-formed again.  (Empty
reads and connection resets remove the socket, lines 240-242 and
253-254, and raise nothing.) -/
theorem c4_amended (buf : Buffer) (data : List Nat) (hwf : WFBuf buf)
    (hb : Bytes data) (h1 : 0 < data.length) (h2 : data.length ≤ buf.remain) :
    (recvStep buf data = none ↔
      buf.waiting = .HEAD ∧ data.length = buf.remain ∧
      Flag.ofNat? ((buf.data ++ data).headD 0) = none) ∧
    (∀ b r s, recvStep buf data = some (b, r, s) → WFBuf b) := by
  obtain ⟨hbytes, hmatch⟩ := hwf
  have hbytes' : Bytes (buf.data ++ data) := by
    intro x hx
    rcases List.mem_append.mp hx with h | h
    exacts [hbytes x h, hb x h]
  rcases Nat.lt_or_ge data.length buf.remain with hlt | hge
  · have hne : buf.remain - data.length ≠ 0 := by omega
    have hstep : recvStep buf data = some (bufAccum buf data, none, none) := by
      unfold recvStep recvParse
      simp [bufAccum, hne]
    rw [hstep]
    constructor
    · simp
      intro _ h4
      omega
    · intro b r s hsome
      have hb' : b = bufAccum buf data := by
        simpa using congrArg (fun o => (o.getD (bufAccum buf data, none, none)).1) hsome.symm
      subst hb'
      unfold WFBuf
      cases hcase : buf.waiting with
      | HEAD =>
        simp only [hcase] at hmatch
        obtain ⟨hflag, hpos, hsum⟩ := hmatch
        simp only [bufAccum, hcase]
        refine ⟨hbytes', hflag, by omega, ?_⟩
        simp
        omega
      | BODY =>
        simp only [hcase] at hmatch
        obtain ⟨hflag, hck, hsum⟩ := hmatch
        simp only [bufAccum, hcase]
        refine ⟨hbytes', hflag, hck, ?_⟩
        simp
        omega
  · have heq : data.length = buf.remain := le_antisymm h2 hge
    have hrem0 : buf.remain - data.length = 0 := by omega
    cases hcase : buf.waiting with
    | HEAD =>
      simp only [hcase] at hmatch
      obtain ⟨hflag, hpos, hsum⟩ := hmatch
      have hd7 : (buf.data ++ data).length = 7 := by simp; omega
      have hstep : recvStep buf data =
          (ConnectionPool.parse_head (bufAccum buf data)).map (fun nb => (nb, none, none)) := by
        unfold recvStep recvParse
        simp [bufAccum, hrem0, hcase]
      cases hof : Flag.ofNat? ((buf.data ++ data).headD 0) with
      | none =>
        have hnone : ConnectionPool.parse_head (bufAccum buf data) = none := by
          unfold ConnectionPool.parse_head Packet.unpack_head
          simp only [bufAccum]
          rw [if_pos hd7, hof]
        rw [hstep, hnone]
        exact ⟨by simp [hcase, heq], by intro b r s h; simp at h⟩
      | some f =>
        have hsome : ConnectionPool.parse_head (bufAccum buf data) =
            some ⟨.BODY, beVal ((buf.data ++ data).drop 5), some f,
              beVal (((buf.data ++ data).drop 1).take 4), []⟩ := by
          unfold ConnectionPool.parse_head Packet.unpack_head
          simp only [bufAccum]
          rw [if_pos hd7, hof]
        rw [hstep, hsome]
        constructor
        · simp [hof]
        · intro b r s h
          simp only [Option.map_some', Option.some.injEq, Prod.mk.injEq] at h
          obtain ⟨hb', _, _⟩ := h
          subst hb'
          refine ⟨fun x hx => absurd hx (List.not_mem_nil x), by simp, ?_, ?_⟩
          · have hlen4 : (((buf.data ++ data).drop 1).take 4).length = 4 := by
              simp
              omega
            have hby : Bytes (((buf.data ++ data).drop 1).take 4) := by
              intro x hx
              exact hbytes' x (List.drop_subset _ _ (List.take_subset _ _ hx))
            have := beVal_lt _ hby
            rw [hlen4] at this
            simpa using this
          · have hlen2 : ((buf.data ++ data).drop 5).length = 2 := by
              simp
              omega
            have hby : Bytes ((buf.data ++ data).drop 5) := by
              intro x hx
              exact hbytes' x (List.drop_subset _ _ hx)
            have := beVal_lt _ hby
            rw [hlen2] at this
            norm_num at this
            simp
            omega
    | BODY =>
      simp only [hcase] at hmatch
      obtain ⟨hflag, hck, hsum⟩ := hmatch
      obtain ⟨f, hf⟩ := Option.ne_none_iff_exists'.mp hflag
      have hlen : (buf.data ++ data).length < 65536 := by simp; omega
      have hstep : recvStep buf data = ConnectionPool.parse_body (bufAccum buf data) := by
        unfold recvStep recvParse
        simp [bufAccum, hrem0, hcase]
      have hlen' : buf.data.length + data.length < 65536 := by simpa using hlen
      have hload : Packet.load .RESEND
          (.resend f.val buf.chksum (Packet.length ⟨f, buf.data ++ data⟩)) =
          some ⟨.RESEND, f.val :: u32be buf.chksum ++ u16be (buf.data ++ data).length⟩ := by
        simp [Packet.load, Packet.length, flag_val_lt f, u32be?, u16be?, hck, hlen, hlen']
      have hpb : ConnectionPool.parse_body (bufAccum buf data) =
          if (Packet.mk f (buf.data ++ data)).is_valid buf.chksum then
            some ((bufAccum buf data).reset, some ⟨f, buf.data ++ data⟩, none)
          else
            some ((bufAccum buf data).reset, none,
              some ⟨.RESEND, f.val :: u32be buf.chksum ++ u16be (buf.data ++ data).length⟩) := by
        unfold ConnectionPool.parse_body
        simp only [bufAccum, hf]
        split
        · rfl
        · rw [hload]
      rw [hstep, hpb]
      constructor
      · split <;> simp [hcase]
      · intro b r s h
        split at h <;>
          (simp only [Option.some.injEq, Prod.mk.injEq] at h
           obtain ⟨hb', _, _⟩ := h
           subst hb'
           exact wf_reset _)

/-- Witness for Claim C4: the fresh buffer receiving a complete valid
PULL head (flag byte 1, zero checksum, zero length) raises nothing,
and a fresh buffer is well-formed. -/
theorem c4_amended_witness :
    WFBuf Buffer.init ∧
    ((recvStep Buffer.init [1, 0, 0, 0, 0, 0, 0] = none ↔
      Buffer.init.waiting = .HEAD ∧
      (7 : Nat) = Buffer.init.remain ∧
      Flag.ofNat? ((Buffer.init.data ++ [1, 0, 0, 0, 0, 0, 0]).headD 0) = none) ∧
    (∀ b r s, recvStep Buffer.init [1, 0, 0, 0, 0, 0, 0] = some (b, r, s) → WFBuf b)) := by
  have hwf : WFBuf Buffer.init := by
    unfold WFBuf Buffer.init
    exact ⟨fun x hx => absurd hx (List.not_mem_nil x), rfl, by norm_num [LEN_HEAD],
      by norm_num [LEN_HEAD]⟩
  have hlen : ([1, 0, 0, 0, 0, 0, 0] : List Nat).length = 7 := rfl
  exact ⟨hwf, by
    simpa using c4_amended Buffer.init [1, 0, 0, 0, 0, 0, 0] hwf (by unfold Bytes; decide)
      (by decide) (by decide)⟩

/-! ## Claim C5 -/

/-- Claim C5: when transmission of the dequeued packet fails with a
connection reset, the writer loop puts the packet back at the head of
send_q, removes the failing socket from the pool (both selector
registrations and the socks set), and every other queued packet keeps
its previous relative order; recv_q is untouched. -/
theorem c5_reset_reinsert (p : ConnectionPool) (sock : Nat) (packet : Packet)
    (rest : List Packet) (hq : p.send_q = packet :: rest) :
    (p.sendIter sock true).send_q = packet :: rest ∧
    (p.sendIter sock true).socks = p.socks.erase sock ∧
    (p.sendIter sock true).sender = p.sender.erase sock ∧
    (p.sendIter sock true).receiver = p.receiver.filter (fun e => e.1 ≠ sock) ∧
    (p.sendIter sock true).recv_q = p.recv_q := by
  unfold ConnectionPool.sendIter
  rw [hq]
  simp [ConnectionPool.remove]

theorem c5_reset_reinsert_witness :
    ((ConnectionPool.init 1).send ⟨Flag.DONE, u32be EOF⟩).send_q =
      ⟨Flag.DONE, u32be EOF⟩ :: [] ∧
    ((((ConnectionPool.init 1).send ⟨Flag.DONE, u32be EOF⟩).sendIter 7 true).send_q =
      ⟨Flag.DONE, u32be EOF⟩ :: []) :=
  ⟨rfl,
   (c5_reset_reinsert ((ConnectionPool.init 1).send ⟨Flag.DONE, u32be EOF⟩) 7
     ⟨Flag.DONE, u32be EOF⟩ [] rfl).1⟩

/-! ## Claim C6 -/

/-- Claim C6 (the code defect): on a CRC32 mismatch, recv_msg calls
send_msg (Flag.RESEND, head) with the raw 7-byte head as the single
argument; Packet.load cannot build a RESEND body from one bytes
argument (pack with format BIH needs the three integers), so the call
raises struct.error instead of sending a well-formed RESEND and
receiving again.  Concretely: a PULL frame declaring chksum 1 and
length 1 with body byte 97 makes recv_msg raise (none), and the load
call it attempts is itself an error. -/
theorem c6_resend_raises :
    NetworkMixin.recv_msg [1, 0, 0, 0, 1, 0, 1, 97] = none ∧
    crc32 [97] ≠ 1 ∧
    Packet.load .RESEND (.path [1, 0, 0, 0, 1, 0, 1]) = none := by
  refine ⟨by decide, by decide, rfl⟩

/-! ## Claim C9 -/

/-- Claim C9 is refuted: ConnectionPool.send does not consult
is_working, so a stopped pool still accepts packets.  On the concrete
pool of size 1, after stop(), send adds the packet to send_q. -/
theorem c9_counterexample :
    (ConnectionPool.init 1).stop.is_working = false ∧
    ((ConnectionPool.init 1).stop.send ⟨Flag.DONE, u32be EOF⟩).send_q =
      [⟨Flag.DONE, u32be EOF⟩] := by
  exact ⟨rfl, rfl⟩

/-- Claim C9 amended: after stop() has set is_working to false, send
still enqueues: for every reachable stopped pool whose send queue has
room, send(packet) is a legal transition that appends the packet to
send_q and leaves the pool stopped.  Stopping only terminates the
worker loops; it does not prevent new packets from being accepted. -/
theorem c9_amended (s : Int) (p : ConnectionPool) (packet : Packet)
    (hr : Reachable s p) (hw : p.is_working = false) (hq : p.putOK p.send_q) :
    PoolStep p (p.send packet) ∧
    (p.send packet).send_q = p.send_q ++ [packet] ∧
    (p.send packet).is_working = false :=
  ⟨PoolStep.send p packet hq, rfl, by simp [ConnectionPool.send, hw]⟩

/-! ## Pool invariant lemmas -/

theorem map_fst_filter_ne (l : List (Nat × Buffer)) (sock : Nat) :
    (l.filter (fun e => e.1 ≠ sock)).map Prod.fst =
      (l.map Prod.fst).filter (fun x => x ≠ sock) := by
  induction l with
  | nil => rfl
  | cons e es ih =>
    simp only [ne_eq, decide_not] at ih ⊢
    by_cases h : e.1 = sock <;> simp [h, ih]

theorem map_fst_update (l : List (Nat × Buffer)) (sock : Nat) (b' : Buffer) :
    (l.map (fun e => if e.1 = sock then (sock, b') else e)).map Prod.fst =
      l.map Prod.fst := by
  induction l with
  | nil => rfl
  | cons e es ih => by_cases h : e.1 = sock <;> simp [h, ih]

theorem poolstep_size (p q : ConnectionPool) (h : PoolStep p q) : q.size = p.size := by
  cases h with
  | send packet hput => rfl
  | add sock hnotin =>
    unfold ConnectionPool.add
    split <;> rfl
  | remove sock hin => rfl
  | recvget packet rest hq => rfl
  | writer sock reset hwork hin =>
    unfold ConnectionPool.sendIter
    cases p.send_q with
    | nil => rfl
    | cons packet rest =>
      cases reset <;> simp [ConnectionPool.remove]
  | reader_eof sock b hwork hin => rfl
  | reader_data sock b b' data r s hwork hin hd1 hd2 hstep hput1 hput2 => rfl
  | stop => rfl

theorem reachable_size (s : Int) (p : ConnectionPool) (hr : Reachable s p) :
    p.size = min s 128 := by
  induction hr with
  | refl => rfl
  | @tail q c hst hstep ih => rw [poolstep_size q c hstep, ih]

theorem poolInv_remove (q : ConnectionPool) (sock : Nat) (h : PoolInv q) :
    PoolInv (q.remove sock) := by
  obtain ⟨h128, hlen, hnd, hmap, hq⟩ := h
  refine ⟨h128, ?_, hnd.erase sock, ?_, fun h1 => hq h1⟩
  · have hle : (q.socks.erase sock).length ≤ q.socks.length :=
      (q.socks.erase_sublist sock).length_le
    show ((q.socks.erase sock).length : Int) ≤ q.size
    omega
  · show (q.receiver.filter (fun e => e.1 ≠ sock)).map Prod.fst = q.socks.erase sock
    rw [map_fst_filter_ne, hmap, List.Nodup.erase_eq_filter hnd]
    apply List.filter_congr
    intro x _
    by_cases h : x = sock <;> simp [h, bne_iff_ne]

theorem reachable_poolInv (s : Int) (hs : 0 ≤ s) (p : ConnectionPool)
    (hr : Reachable s p) : PoolInv p := by
  induction hr with
  | refl =>
    refine ⟨min_le_right s 128, ?_, List.nodup_nil, rfl, fun h1 => ?_⟩
    · show ((0 : Nat) : Int) ≤ min s 128
      simp
      omega
    · have h1' : (1 : Int) ≤ min s 128 := h1
      constructor <;> (show ((0 : Nat) : Int) ≤ min s 128 * 5; simp; nlinarith)
  | @tail q c hst hstep ih =>
    obtain ⟨h128, hlen, hnd, hmap, hq⟩ := ih
    cases hstep with
    | send packet hput =>
      refine ⟨h128, hlen, hnd, hmap, fun h1 => ?_⟩
      have h1' : 1 ≤ q.size := h1
      obtain ⟨hsq, hrq⟩ := hq h1'
      unfold ConnectionPool.putOK at hput
      have hcap : ¬ (q.size * 5 ≤ 0) := by omega
      have hlt : (q.send_q.length : Int) < q.size * 5 := hput.resolve_left hcap
      constructor
      · show (((q.send_q ++ [packet]).length : Nat) : Int) ≤ q.size * 5
        simp only [List.length_append, List.length_cons, List.length_nil]
        push_cast
        omega
      · exact hrq
    | add sock hnotin =>
      unfold ConnectionPool.add
      by_cases hlt : (q.socks.length : Int) < q.size
      · rw [if_pos hlt]
        refine ⟨h128, ?_, ?_, ?_, fun h1 => hq h1⟩
        · show (((q.socks ++ [sock]).length : Nat) : Int) ≤ q.size
          simp only [List.length_append, List.length_cons, List.length_nil]
          push_cast
          omega
        · simp [List.nodup_append, hnd, hnotin]
        · show (q.receiver ++ [(sock, Buffer.init)]).map Prod.fst = q.socks ++ [sock]
          simp [hmap]
      · rw [if_neg hlt]
        exact ⟨h128, hlen, hnd, hmap, hq⟩
    | remove sock hin => exact poolInv_remove q sock ⟨h128, hlen, hnd, hmap, hq⟩
    | recvget packet rest hqq =>
      refine ⟨h128, hlen, hnd, hmap, fun h1 => ?_⟩
      have h1' : 1 ≤ q.size := h1
      obtain ⟨hsq, hrq⟩ := hq h1'
      rw [hqq] at hrq
      simp only [List.length_cons] at hrq
      constructor
      · exact hsq
      · show ((rest.length : Nat) : Int) ≤ q.size * 5
        push_cast at hrq ⊢
        omega
    | writer sock reset hwork hin =>
      unfold ConnectionPool.sendIter
      cases hsq : q.send_q with
      | nil => exact ⟨h128, hlen, hnd, hmap, hq⟩
      | cons packet rest =>
        cases reset with
        | false =>
          simp only [if_neg Bool.false_ne_true]
          refine ⟨h128, hlen, hnd, hmap, fun h1 => ?_⟩
          have h1' : 1 ≤ q.size := h1
          obtain ⟨hsqb, hrq⟩ := hq h1'
          rw [hsq] at hsqb
          simp only [List.length_cons] at hsqb
          constructor
          · show ((rest.length : Nat) : Int) ≤ q.size * 5
            push_cast at hsqb ⊢
            omega
          · exact hrq
        | true =>
          simp only [if_pos rfl]
          refine ⟨h128, ?_, hnd.erase sock, ?_, fun h1 => ?_⟩
          · show ((q.socks.erase sock).length : Int) ≤ q.size
            have hle : (q.socks.erase sock).length ≤ q.socks.length :=
              (q.socks.erase_sublist sock).length_le
            omega
          · show (q.receiver.filter (fun e => e.1 ≠ sock)).map Prod.fst =
              q.socks.erase sock
            rw [map_fst_filter_ne, hmap, List.Nodup.erase_eq_filter hnd]
            apply List.filter_congr
            intro x _
            by_cases h : x = sock <;> simp [h, bne_iff_ne]
          · have h1' : 1 ≤ q.size := h1
            obtain ⟨hsqb, hrq⟩ := hq h1'
            rw [hsq] at hsqb
            exact ⟨hsqb, hrq⟩
    | reader_eof sock b hwork hin =>
      exact poolInv_remove q sock ⟨h128, hlen, hnd, hmap, hq⟩
    | reader_data sock b b' data r s' hwork hin hd1 hd2 hstep2 hput1 hput2 =>
      refine ⟨h128, hlen, hnd, ?_, fun h1 => ?_⟩
      · show (q.receiver.map fun e => if e.1 = sock then (sock, b') else e).map Prod.fst
            = q.socks
        rw [map_fst_update, hmap]
      · have h1' : 1 ≤ q.size := h1
        obtain ⟨hsq, hrq⟩ := hq h1'
        unfold ConnectionPool.putOK at hput1 hput2
        constructor
        · show (((q.send_q ++ s'.toList).length : Nat) : Int) ≤ q.size * 5
          cases s' with
          | none => simpa using hsq
          | some pk =>
            have := hput2 rfl
            have hcap : ¬ (q.size * 5 ≤ 0) := by omega
            have hlt := this.resolve_left hcap
            simp only [Option.toList_some, List.length_append, List.length_cons,
              List.length_nil]
            push_cast
            push_cast at hlt
            omega
        · show (((q.recv_q ++ r.toList).length : Nat) : Int) ≤ q.size * 5
          cases r with
          | none => simpa using hrq
          | some pk =>
            have := hput1 rfl
            have hcap : ¬ (q.size * 5 ≤ 0) := by omega
            have hlt := this.resolve_left hcap
            simp only [Option.toList_some, List.length_append, List.length_cons,
              List.length_nil]
            push_cast
            push_cast at hlt
            omega
    | stop => exact ⟨h128, hlen, hnd, hmap, hq⟩

/-! ## Claim C7 -/

/-- Claim C7 is refuted: each queue is created with maxsize size * 5,
so together they hold up to 2 x size x 5 packets.  Concretely, a pool
of size 1 reaches a state with 5 packets in send_q and 1 in recv_q
(delivered by the reader from a valid PULL frame), 6 > 5. -/
theorem c7_counterexample :
    ∃ p, Reachable 1 p ∧
      p.size * 5 < ((p.send_q.length + p.recv_q.length : Nat) : Int) := by
  have h1 : PoolStep (ConnectionPool.init 1) ((ConnectionPool.init 1).add 0).1 :=
    PoolStep.add _ 0 (by decide)
  have h2 : PoolStep ((ConnectionPool.init 1).add 0).1
      (((ConnectionPool.init 1).add 0).1.send ⟨Flag.DONE, u32be EOF⟩) :=
    PoolStep.send _ _ (by unfold ConnectionPool.putOK; decide)
  have h3 := PoolStep.send ((((ConnectionPool.init 1).add 0).1.send
    ⟨Flag.DONE, u32be EOF⟩)) ⟨Flag.DONE, u32be EOF⟩ (by unfold ConnectionPool.putOK; decide)
  have h4 := PoolStep.send (((((ConnectionPool.init 1).add 0).1.send
    ⟨Flag.DONE, u32be EOF⟩)).send ⟨Flag.DONE, u32be EOF⟩) ⟨Flag.DONE, u32be EOF⟩
    (by unfold ConnectionPool.putOK; decide)
  have h5 := PoolStep.send ((((((ConnectionPool.init 1).add 0).1.send
    ⟨Flag.DONE, u32be EOF⟩)).send ⟨Flag.DONE, u32be EOF⟩).send ⟨Flag.DONE, u32be EOF⟩)
    ⟨Flag.DONE, u32be EOF⟩ (by unfold ConnectionPool.putOK; decide)
  have h6 := PoolStep.send (((((((ConnectionPool.init 1).add 0).1.send
    ⟨Flag.DONE, u32be EOF⟩)).send ⟨Flag.DONE, u32be EOF⟩).send ⟨Flag.DONE, u32be EOF⟩).send
    ⟨Flag.DONE, u32be EOF⟩) ⟨Flag.DONE, u32be EOF⟩ (by unfold ConnectionPool.putOK; decide)
  have h7 := PoolStep.reader_data ((((((((ConnectionPool.init 1).add 0).1.send
    ⟨Flag.DONE, u32be EOF⟩)).send ⟨Flag.DONE, u32be EOF⟩).send ⟨Flag.DONE, u32be EOF⟩).send
    ⟨Flag.DONE, u32be EOF⟩).send ⟨Flag.DONE, u32be EOF⟩) 0 Buffer.init
    ⟨.BODY, 1, some .PULL, 3904355907, []⟩ [1, 232, 183, 190, 67, 0, 1] none none
    rfl (by decide) (by decide) (by decide) (by decide)
    (fun h => nomatch h) (fun h => nomatch h)
  refine ⟨_, Relation.ReflTransGen.tail (Relation.ReflTransGen.tail
    (Relation.ReflTransGen.tail (Relation.ReflTransGen.tail
      (Relation.ReflTransGen.tail (Relation.ReflTransGen.tail
        (Relation.ReflTransGen.tail Relation.ReflTransGen.refl h1) h2) h3) h4) h5)
     h6) h7 |>.tail (PoolStep.reader_data _ 0 ⟨.BODY, 1, some .PULL, 3904355907, []⟩
       ⟨.HEAD, LEN_HEAD, none, 0, []⟩ [97] (some ⟨.PULL, [97]⟩) none
       rfl (by decide) (by decide) (by decide) (by decide)
       (fun _ => by unfold ConnectionPool.putOK; decide) (fun h => nomatch h)), by decide⟩

/-- Claim C7 amended: for a pool whose requested size is at least 1,
every reachable state keeps each queue within size x 5 packets - so
at most 2 x size x 5 across both queues, not size x 5 - with exactly
one registered Buffer per socket, and every operation preserves these
bounds, including the writer re-inserting at the queue head on a send
failure. -/
theorem c7_amended (s : Int) (p : ConnectionPool) (hs : 1 ≤ s) (hr : Reachable s p) :
    (p.send_q.length : Int) ≤ p.size * 5 ∧ (p.recv_q.length : Int) ≤ p.size * 5 ∧
    (p.send_q.length + p.recv_q.length : Int) ≤ 2 * (p.size * 5) ∧
    p.receiver.length = p.socks.length := by
  have hinv := reachable_poolInv s (by omega) p hr
  have hsz := reachable_size s p hr
  have h1 : 1 ≤ p.size := by rw [hsz]; omega
  obtain ⟨_, _, _, hmap, hq⟩ := hinv
  obtain ⟨hsq, hrq⟩ := hq h1
  exact ⟨hsq, hrq, by omega, by rw [← hmap, List.length_map]⟩

theorem c7_amended_witness :
    ((ConnectionPool.init 1).send_q.length : Int) ≤ (ConnectionPool.init 1).size * 5 ∧
    ((ConnectionPool.init 1).recv_q.length : Int) ≤ (ConnectionPool.init 1).size * 5 ∧
    ((ConnectionPool.init 1).send_q.length + (ConnectionPool.init 1).recv_q.length : Int)
      ≤ 2 * ((ConnectionPool.init 1).size * 5) ∧
    (ConnectionPool.init 1).receiver.length = (ConnectionPool.init 1).socks.length :=
  c7_amended 1 (ConnectionPool.init 1) (by norm_num) Relation.ReflTransGen.refl

/-! ## Claim C8 -/

/-- Claim C8 is refuted for non-positive requested sizes: the
constructor only clamps from above with min(size, 128), so
ConnectionPool(-1) has size -1 while socks is empty, and
|socks| <= size fails already in the initial state. -/
theorem c8_counterexample :
    Reachable (-1) (ConnectionPool.init (-1)) ∧
    ¬ (((ConnectionPool.init (-1)).socks.length : Int) ≤ (ConnectionPool.init (-1)).size) :=
  ⟨Relation.ReflTransGen.refl, by decide⟩

/-- Claim C8 amended: for every pool constructed with a non-negative
requested size, every reachable state satisfies |socks| ≤ size ≤ 128;
add registers the socket with both selectors (write readiness on the
sender, read readiness with a fresh Buffer on the receiver), adds it
to socks and returns true exactly when |socks| < size, and returns
false leaving the pool unchanged when the pool is at size. -/
theorem c8_amended (s : Int) (p : ConnectionPool) (hs : 0 ≤ s) (hr : Reachable s p) :
    (p.socks.length : Int) ≤ p.size ∧ p.size ≤ 128 ∧
    (∀ sock, ((p.socks.length : Int) < p.size →
        p.add sock = ({ p with sender := p.sender ++ [sock],
                               receiver := p.receiver ++ [(sock, Buffer.init)],
                               socks := p.socks ++ [sock] }, true)) ∧
      (p.size ≤ (p.socks.length : Int) → p.add sock = (p, false))) := by
  have hinv := reachable_poolInv s hs p hr
  obtain ⟨h128, hlen, _, _, _⟩ := hinv
  refine ⟨hlen, h128, fun sock => ⟨fun hlt => ?_, fun hge => ?_⟩⟩
  · simp [ConnectionPool.add, hlt]
  · simp [ConnectionPool.add, show ¬ ((p.socks.length : Int) < p.size) by omega]

theorem c8_amended_witness :
    (((ConnectionPool.init 2).socks.length : Int) ≤ (ConnectionPool.init 2).size ∧
      (ConnectionPool.init 2).size ≤ 128) ∧
    (ConnectionPool.init 2).add 9 =
      ({ (ConnectionPool.init 2) with sender := (ConnectionPool.init 2).sender ++ [9],
                                      receiver := (ConnectionPool.init 2).receiver ++ [(9, Buffer.init)],
                                      socks := (ConnectionPool.init 2).socks ++ [9] }, true) := by
  have h := c8_amended 2 (ConnectionPool.init 2) (by norm_num) Relation.ReflTransGen.refl
  exact ⟨⟨h.1, h.2.1⟩, (h.2.2 9).1 (by decide)⟩

/-! ## Claim C10 -/

/-- On a pool of non-positive size the sockets and registrations stay
empty and the size stays non-positive. -/
theorem nonpos_invariant (s : Int) (hs : s ≤ 0) (p : ConnectionPool)
    (hr : Reachable s p) :
    p.socks = [] ∧ p.sender = [] ∧ p.receiver = [] ∧ p.size ≤ 0 := by
  induction hr with
  | refl =>
    refine ⟨rfl, rfl, rfl, ?_⟩
    simpa [ConnectionPool.init] using Or.inl hs
  | @tail q c hst hstep ih =>
    obtain ⟨h1, h2, h3, h4⟩ := ih
    cases hstep with
    | send packet hput => exact ⟨h1, h2, h3, h4⟩
    | add sock hnotin =>
      have hlt : ¬ ((0 : Int) < q.size) := by omega
      simp [ConnectionPool.add, h1, h2, h3, h4, hlt]
    | remove sock hin => simp [ConnectionPool.remove, h1, h2, h3, h4]
    | recvget packet rest hq => exact ⟨h1, h2, h3, h4⟩
    | writer sock reset hwork hin => rw [h2] at hin; cases hin
    | reader_eof sock b hwork hin => rw [h3] at hin; cases hin
    | reader_data sock b b' data r sq hwork hin hd1 hd2 hstep2 hput1 hput2 =>
      rw [h3] at hin; cases hin
    | stop => exact ⟨h1, h2, h3, h4⟩

/-- Claim C10: a pool constructed with a non-positive requested size
admits no socket - add returns false and changes nothing, in every
reachable state - and its queues were created with non-positive
maxsize size * 5, hence are unbounded: every put is admitted and
send_q can reach any length, rather than being bounded by
size * 5. -/
theorem c10_nonpositive (s : Int) (hs : s ≤ 0) :
    (∀ p, Reachable s p →
      p.socks = [] ∧ p.size * 5 ≤ 0 ∧ (∀ q, p.putOK q) ∧
      (∀ sock, p.add sock = (p, false))) ∧
    (∀ n, ∃ p, Reachable s p ∧ p.send_q.length = n) := by
  constructor
  · intro p hr
    obtain ⟨h1, _, _, h4⟩ := nonpos_invariant s hs p hr
    have hcap : p.size * 5 ≤ 0 := by omega
    refine ⟨h1, hcap, fun q => Or.inl hcap, fun sock => ?_⟩
    have : ¬ ((p.socks.length : Int) < p.size) := by rw [h1]; simp; omega
    simp [ConnectionPool.add, this]
  · intro n
    induction n with
    | zero => exact ⟨ConnectionPool.init s, Relation.ReflTransGen.refl, rfl⟩
    | succ m ih =>
      obtain ⟨p, hp, hlen⟩ := ih
      have hcap : p.size ≤ 0 := (nonpos_invariant s hs p hp).2.2.2
      refine ⟨p.send ⟨Flag.DONE, u32be EOF⟩,
        Relation.ReflTransGen.tail hp
          (PoolStep.send p ⟨Flag.DONE, u32be EOF⟩ (Or.inl (by omega))), ?_⟩
      simp [ConnectionPool.send, hlen]

theorem c10_nonpositive_witness :
    (((-1 : Int) ≤ 0) ∧ (ConnectionPool.init (-1)).add 3 = (ConnectionPool.init (-1), false)) ∧
    (∃ p, Reachable (-1) p ∧ p.send_q.length = 3) :=
  ⟨⟨by norm_num,
    ((c10_nonpositive (-1) (by norm_num)).1 (ConnectionPool.init (-1))
      Relation.ReflTransGen.refl).2.2.2 3⟩,
   (c10_nonpositive (-1) (by norm_num)).2 3⟩

theorem c9_amended_witness :
    PoolStep (ConnectionPool.init 1).stop
      ((ConnectionPool.init 1).stop.send ⟨Flag.DONE, u32be EOF⟩) ∧
    ((ConnectionPool.init 1).stop.send ⟨Flag.DONE, u32be EOF⟩).send_q =
      (ConnectionPool.init 1).stop.send_q ++ [⟨Flag.DONE, u32be EOF⟩] ∧
    ((ConnectionPool.init 1).stop.send ⟨Flag.DONE, u32be EOF⟩).is_working = false :=
  c9_amended 1 (ConnectionPool.init 1).stop ⟨Flag.DONE, u32be EOF⟩
    (Relation.ReflTransGen.single (PoolStep.stop (ConnectionPool.init 1)))
    rfl (Or.inr (by decide))

end FastCopy
